import Mathlib

set_option maxHeartbeats 1000000

namespace PdfEpubConverter

/-!
Shallow embedding of the pdf-epub-converter reading frontend:
the overlay selection engine (selection test page script: click handler,
drag mousemove handler, Ctrl+C copy handler), the EPUB package parser
(`EpubReader.js` `parseEpub`), page navigation (`handlePageChange`), and
the page viewer (`PageViewer` in `App.js`: image resolution, keyboard
navigation, overlay-detection branches of `processPageContent`).
-/

/-! ## Selection engine model

A `Rect` is an on-screen bounding rectangle (`getBoundingClientRect`
style: left/top/right/bottom in viewport coordinates).  A `TextElement`
is one rendered `.text-element` node; `id` stands for DOM node identity
and `text` for its `data-text` attribute. -/

structure Rect where
  left : Int
  top : Int
  right : Int
  bottom : Int
deriving DecidableEq, Repr

structure TextElement where
  id : Nat
  text : String
  rect : Rect
deriving DecidableEq, Repr

/-- The hit test from the drag `mousemove` handler:
`elementRect.left < rect.right && elementRect.right > rect.left &&
elementRect.top < rect.bottom && elementRect.bottom > rect.top`. -/
def isInSelection (elementRect rect : Rect) : Prop :=
  elementRect.left < rect.right ∧ elementRect.right > rect.left ∧
  elementRect.top < rect.bottom ∧ elementRect.bottom > rect.top

instance (a b : Rect) : Decidable (isInSelection a b) := by
  unfold isInSelection
  exact inferInstance

/-- One iteration of the `elements.forEach` body in the drag `mousemove`
handler.  `selectedElements` is modelled as a list in Set insertion
order; `ctrl` is true when Ctrl or Meta is held.
`if (isInSelection && !has) add; else if (!isInSelection && has && !ctrl) delete`. -/
def dragUpdateStep (ctrl : Bool) (rect : Rect) (sel : List TextElement)
    (el : TextElement) : List TextElement :=
  if isInSelection el.rect rect ∧ el ∉ sel then sel ++ [el]
  else if ¬ isInSelection el.rect rect ∧ el ∈ sel ∧ ctrl = false then sel.erase el
  else sel

/-- One drag update: the `forEach` over every rendered `.text-element`. -/
def dragUpdate (ctrl : Bool) (elements : List TextElement) (rect : Rect)
    (sel : List TextElement) : List TextElement :=
  elements.foldl (dragUpdateStep ctrl rect) sel

/-- The click handler on a text element: without a modifier the whole
selection is cleared first (`clearSelection()`), then the clicked
element's membership is toggled. -/
def clickSelect (ctrl : Bool) (sel : List TextElement) (el : TextElement) :
    List TextElement :=
  let sel1 := if ctrl then sel else []
  if el ∈ sel1 then sel1.erase el else sel1 ++ [el]

/-- The Ctrl+C handler: `Array.from(selectedElements).map(el =>
el.getAttribute('data-text')).join(' ')` — texts in Set insertion
order, joined by a single space. -/
def copyText (sel : List TextElement) : String :=
  String.intercalate " " (sel.map TextElement.text)

/-! ### Lemmas about one drag-update step -/

lemma mem_dragUpdateStep_self (rect : Rect) (sel : List TextElement)
    (el : TextElement) (h : sel.Nodup) :
    el ∈ dragUpdateStep false rect sel el ↔ isInSelection el.rect rect := by
  unfold dragUpdateStep
  by_cases hin : isInSelection el.rect rect
  · by_cases hmem : el ∈ sel
    · simp [hin, hmem]
    · simp [hin, hmem]
  · by_cases hmem : el ∈ sel
    · simp [hin, hmem, h.mem_erase_iff]
    · simp [hin, hmem]

lemma mem_dragUpdateStep_other (ctrl : Bool) (rect : Rect) (sel : List TextElement)
    (el x : TextElement) (hne : x ≠ el) :
    x ∈ dragUpdateStep ctrl rect sel el ↔ x ∈ sel := by
  unfold dragUpdateStep
  by_cases hin : isInSelection el.rect rect
  · by_cases hmem : el ∈ sel
    · simp [hin, hmem]
    · simp [hin, hmem, hne]
  · by_cases hmem : el ∈ sel
    · by_cases hc : ctrl = false
      · simp only [hin, hmem, hc, if_neg, if_pos, not_false_iff, and_true, true_and,
          false_and, if_false]
        simp [List.mem_erase_of_ne hne]
      · simp [hin, hmem, hc]
    · simp [hin, hmem]

lemma nodup_dragUpdateStep (ctrl : Bool) (rect : Rect) (sel : List TextElement)
    (el : TextElement) (h : sel.Nodup) :
    (dragUpdateStep ctrl rect sel el).Nodup := by
  unfold dragUpdateStep
  by_cases hin : isInSelection el.rect rect
  · by_cases hmem : el ∈ sel
    · simp [hin, hmem, h]
    · simp [hin, hmem, List.nodup_append, h]
  · by_cases hmem : el ∈ sel
    · by_cases hc : ctrl = false
      · simp [hin, hmem, hc, h.erase el]
      · simp [hin, hmem, hc, h]
    · simp [hin, hmem, h]

lemma mem_dragUpdate_of_not_mem (ctrl : Bool) (rect : Rect)
    (elements : List TextElement) (x : TextElement)
    (hx : ∀ el ∈ elements, x ≠ el) :
    ∀ sel : List TextElement, x ∈ dragUpdate ctrl elements rect sel ↔ x ∈ sel := by
  induction elements with
  | nil => intro sel; simp [dragUpdate]
  | cons hd tl ih =>
    intro sel
    have h1 : x ∈ dragUpdate ctrl tl rect (dragUpdateStep ctrl rect sel hd) ↔
        x ∈ dragUpdateStep ctrl rect sel hd :=
      ih (fun el hel => hx el (List.mem_cons_of_mem hd hel)) _
    have h2 : x ∈ dragUpdateStep ctrl rect sel hd ↔ x ∈ sel :=
      mem_dragUpdateStep_other ctrl rect sel hd x (hx hd (List.mem_cons_self hd tl))
    simpa [dragUpdate] using h1.trans h2

lemma nodup_dragUpdate (ctrl : Bool) (rect : Rect) (elements : List TextElement) :
    ∀ sel : List TextElement, sel.Nodup → (dragUpdate ctrl elements rect sel).Nodup := by
  induction elements with
  | nil => intro sel h; simpa [dragUpdate] using h
  | cons hd tl ih =>
    intro sel h
    have := ih (dragUpdateStep ctrl rect sel hd) (nodup_dragUpdateStep ctrl rect sel hd h)
    simpa [dragUpdate] using this

lemma mem_dragUpdate_iff (rect : Rect) (elements : List TextElement)
    (e : TextElement) :
    ∀ sel : List TextElement, elements.Nodup → sel.Nodup → e ∈ elements →
    (e ∈ dragUpdate false elements rect sel ↔ isInSelection e.rect rect) := by
  induction elements with
  | nil => intro sel _ _ he; cases he
  | cons hd tl ih =>
    intro sel hel hsel he
    rcases List.mem_cons.mp he with heq | htl
    · subst heq
      have hnot : ∀ el ∈ tl, e ≠ el := by
        intro el hel2 heq2
        exact (List.nodup_cons.mp hel).1 (heq2 ▸ hel2)
      have h1 : e ∈ dragUpdate false tl rect (dragUpdateStep false rect sel e) ↔
          e ∈ dragUpdateStep false rect sel e :=
        mem_dragUpdate_of_not_mem false rect tl e hnot _
      have h2 := mem_dragUpdateStep_self rect sel e hsel
      simpa [dragUpdate] using h1.trans h2
    · have h1 := ih (dragUpdateStep false rect sel hd) (List.nodup_cons.mp hel).2
        (nodup_dragUpdateStep false rect sel hd hsel) htl
      simpa [dragUpdate] using h1

/-- C1: during a no-modifier drag, after a drag update with rectangle
`rect`, a rendered text element is selected iff its bounding rectangle
intersects `rect` under the strict axis-aligned test; an element whose
rectangle merely touches `rect` at an edge is not selected. -/
theorem drag_select_iff_strict_intersection (elements : List TextElement)
    (rect : Rect) (sel : List TextElement) (hel : elements.Nodup)
    (hsel : sel.Nodup) (e : TextElement) (he : e ∈ elements) :
    (e ∈ dragUpdate false elements rect sel ↔
      (e.rect.left < rect.right ∧ e.rect.right > rect.left ∧
       e.rect.top < rect.bottom ∧ e.rect.bottom > rect.top)) ∧
    ((e.rect.left = rect.right ∨ e.rect.right = rect.left ∨
      e.rect.top = rect.bottom ∨ e.rect.bottom = rect.top) →
      e ∉ dragUpdate false elements rect sel) := by
  have hmain := mem_dragUpdate_iff rect elements e sel hel hsel he
  constructor
  · exact hmain
  · intro hedge hmem
    have hin : isInSelection e.rect rect := hmain.mp hmem
    unfold isInSelection at hin
    rcases hedge with h | h | h | h <;> omega

def exElemA : TextElement := ⟨0, "A", ⟨0, 0, 10, 10⟩⟩

def exElemB : TextElement := ⟨1, "B", ⟨20, 0, 30, 10⟩⟩

def exElems : List TextElement := [exElemA, exElemB]

def exDragRect : Rect := ⟨5, 5, 15, 15⟩

/-- C1 witness: on a concrete page with two elements, the drag rectangle
`(5,5)-(15,15)` selects element A (which overlaps it). -/
theorem drag_select_iff_strict_intersection_witness :
    exElemA ∈ dragUpdate false exElems exDragRect [] :=
  (drag_select_iff_strict_intersection exElems exDragRect []
    (by decide) (by decide) exElemA (by decide)).1.mpr (by decide)

/-! ### Click selection and copy export (C2, C3) -/

lemma clickSelect_ctrl_of_not_mem (sel : List TextElement) (el : TextElement)
    (h : el ∉ sel) : clickSelect true sel el = sel ++ [el] := by
  simp [clickSelect, h]

lemma foldl_clickSelect_ctrl (clicks : List TextElement) :
    ∀ sel : List TextElement, clicks.Nodup → (∀ c ∈ clicks, c ∉ sel) →
    clicks.foldl (clickSelect true) sel = sel ++ clicks := by
  induction clicks with
  | nil => intro sel _ _; simp
  | cons c cs ih =>
    intro sel hnd hdisj
    have hc : c ∉ sel := hdisj c (List.mem_cons_self c cs)
    have hstep : clickSelect true sel c = sel ++ [c] :=
      clickSelect_ctrl_of_not_mem sel c hc
    have hrest : ∀ x ∈ cs, x ∉ sel ++ [c] := by
      intro x hx hmem
      rcases List.mem_append.mp hmem with h1 | h1
      · exact hdisj x (List.mem_cons_of_mem c hx) h1
      · have : x = c := by simpa using h1
        exact (List.nodup_cons.mp hnd).1 (this ▸ hx)
    calc (c :: cs).foldl (clickSelect true) sel
        = cs.foldl (clickSelect true) (sel ++ [c]) := by simp [hstep]
      _ = (sel ++ [c]) ++ cs := ih (sel ++ [c]) (List.nodup_cons.mp hnd).2 hrest
      _ = sel ++ (c :: cs) := by simp

/-- C2 (amended): a selection built by modifier-clicks on distinct,
previously unselected elements exports the clicked elements' texts in
click/insertion order, joined by a single space — not in document
order. -/
theorem copy_joins_in_insertion_order (clicks : List TextElement)
    (h : clicks.Nodup) :
    copyText (clicks.foldl (clickSelect true) []) =
      String.intercalate " " (clicks.map TextElement.text) := by
  rw [foldl_clickSelect_ctrl clicks [] h (by simp)]
  simp [copyText]

/-- C2 witness: modifier-clicking B then A exports "B A". -/
theorem copy_joins_in_insertion_order_witness :
    copyText ([exElemB, exElemA].foldl (clickSelect true) []) =
      String.intercalate " " ([exElemB, exElemA].map TextElement.text) :=
  copy_joins_in_insertion_order [exElemB, exElemA] (by decide)

/-- C2 counterexample: with the page's elements in document order
`[exElemA, exElemB]` (texts "A" then "B"), building the selection by
modifier-clicking B first and then A makes the copy handler put
`"B A"` on the clipboard, whereas the claim demands the document-order
string `"A B"` regardless of click order. -/
theorem copy_not_in_document_order :
    copyText ([exElemB, exElemA].foldl (clickSelect true) []) = "B A" ∧
    copyText ([exElemB, exElemA].foldl (clickSelect true) []) ≠
      String.intercalate " " ([exElemA, exElemB].map TextElement.text) := by
  constructor
  · rfl
  · decide

/-- C3 (amended): a click with no modifier key held first clears the
whole selection — including the clicked element itself — and then
toggles the clicked element, so the clicked element always ends up as
the only selected element; in particular clicking A and then B leaves
exactly B selected. -/
theorem click_no_modifier_selects_exactly_clicked (sel : List TextElement)
    (a b : TextElement) :
    clickSelect false sel a = [a] ∧
    clickSelect false (clickSelect false sel a) b = [b] := by
  constructor <;> simp [clickSelect]

/-- C3 counterexample: with A the only selected element, clicking A with
no modifier leaves A selected (the code clears the whole selection,
then re-adds A).  The claim — clear all selections *other than* A, then
toggle A's membership — entails that A ends up *deselected* here, so
the code refutes the claim at this input. -/
theorem click_on_selected_element_keeps_it :
    clickSelect false [exElemA] exElemA = [exElemA] ∧
    exElemA ∈ clickSelect false [exElemA] exElemA := by
  constructor
  · rfl
  · decide

/-! ## EPUB package parser model (`EpubReader.js` `parseEpub`)

The manifest is the JS object built by `manifestItems.forEach`
(`manifest[id] = {href, mediaType}`, later assignments win), modelled
as an association list with last-wins lookup.  The zip archive is a
path-to-content association. -/

structure ManifestItem where
  href : String
  mediaType : String
deriving DecidableEq, Repr

structure SpineEntry where
  id : String
  href : String
  mediaType : String
deriving DecidableEq, Repr

structure Page where
  id : String
  href : String
  content : String
  title : String
deriving DecidableEq, Repr

/-- `manifest[idref]` — JS object lookup where the last assignment for a
key wins. -/
def lookupManifest (manifest : List (String × ManifestItem)) (idref : String) :
    Option ManifestItem :=
  (manifest.reverse.find? (fun p => p.1 == idref)).map Prod.snd

/-- `zipContent.file(path)` followed by reading its text: `some` content
when the archive has an entry at `path`, else `none`. -/
def zipFile (zip : List (String × String)) (path : String) : Option String :=
  (zip.find? (fun p => p.1 == path)).map Prod.snd

/-- Spine construction: `spineItems.forEach` pushes
`{id: idref, href, mediaType}` for each itemref whose `idref` resolves
in the manifest, in document order; unresolvable idrefs are skipped
(the loop body has no `else` branch and no logging statement). -/
def buildSpine (manifest : List (String × ManifestItem))
    (itemrefs : List String) : List SpineEntry :=
  itemrefs.filterMap (fun idref =>
    (lookupManifest manifest idref).map
      (fun m => ⟨idref, m.href, m.mediaType⟩))

def xhtmlMediaType : String := "application/xhtml+xml"

/-- The `for (let i = 0; i < spine.length; i++)` pages loop: an
`application/xhtml+xml` spine item whose file reads successfully
becomes a page titled `Page ${i+1}` (1-based spine index); a failed
read is caught, warned about and skipped; other media types are
skipped. -/
def buildPagesAux (zip : List (String × String)) (opfBasePath : String) :
    Nat → List SpineEntry → List Page
  | _, [] => []
  | i, item :: rest =>
    if item.mediaType = xhtmlMediaType then
      match zipFile zip (opfBasePath ++ item.href) with
      | some content =>
          ⟨item.id, item.href, content, "Page " ++ toString (i + 1)⟩ ::
            buildPagesAux zip opfBasePath (i + 1) rest
      | none => buildPagesAux zip opfBasePath (i + 1) rest
    else buildPagesAux zip opfBasePath (i + 1) rest

def buildPages (zip : List (String × String)) (opfBasePath : String)
    (spine : List SpineEntry) : List Page :=
  buildPagesAux zip opfBasePath 0 spine

/-- The `console.warn` messages `parseEpub` can emit on its successful
path: only the pages loop logs (`Could not load page: ${item.href}` on
a failed read); the spine-construction loop contains no logging
statement, so skipped itemrefs contribute nothing here. -/
def parseEpubLogs (zip : List (String × String)) (opfBasePath : String)
    (manifest : List (String × ManifestItem)) (itemrefs : List String) :
    List String :=
  (buildSpine manifest itemrefs).filterMap (fun item =>
    if item.mediaType = xhtmlMediaType ∧ (zipFile zip (opfBasePath ++ item.href)).isNone
    then some ("Could not load page: " ++ item.href) else none)

/-- `handlePageChange`: `if (pageIndex >= 0 && pageIndex < pages.length)
setCurrentPageIndex(pageIndex)` — otherwise the index is left
unchanged. -/
def handlePageChange (pagesLen : Nat) (currentPageIndex pageIndex : Int) : Int :=
  if 0 ≤ pageIndex ∧ pageIndex < (pagesLen : Int) then pageIndex
  else currentPageIndex

/-! ### C4: pages are an order-preserving subsequence of the spine -/

lemma buildPagesAux_href_sublist (zip : List (String × String))
    (opfBasePath : String) (spine : List SpineEntry) :
    ∀ i : Nat, ((buildPagesAux zip opfBasePath i spine).map Page.href).Sublist
      (spine.map SpineEntry.href) := by
  induction spine with
  | nil => intro i; simp [buildPagesAux]
  | cons item rest ih =>
    intro i
    by_cases hmt : item.mediaType = xhtmlMediaType
    · rcases hzf : zipFile zip (opfBasePath ++ item.href) with _ | content
      · simpa [buildPagesAux, hmt, hzf] using (ih (i + 1)).cons item.href
      · simpa [buildPagesAux, hmt, hzf] using (ih (i + 1)).cons₂ item.href
    · simpa [buildPagesAux, hmt] using (ih (i + 1)).cons item.href

/-- C4: for every archive, base path and spine, the pages' hrefs form an
order-preserving subsequence of the spine's hrefs (reading order is
never reordered), and `pages.length ≤ spine.length`. -/
theorem pages_subsequence_of_spine (zip : List (String × String))
    (opfBasePath : String) (spine : List SpineEntry) :
    ((buildPages zip opfBasePath spine).map Page.href).Sublist
      (spine.map SpineEntry.href) ∧
    (buildPages zip opfBasePath spine).length ≤ spine.length := by
  have h := buildPagesAux_href_sublist zip opfBasePath spine 0
  refine ⟨h, ?_⟩
  have := h.length_le
  simpa using this

/-! ### C5: unresolvable itemrefs are skipped (silently) -/

def exManifest : List (String × ManifestItem) :=
  [("p1", ⟨"page1.xhtml", "application/xhtml+xml"⟩),
   ("p3", ⟨"page3.xhtml", "application/xhtml+xml"⟩)]

def exItemrefs : List String := ["p1", "p2", "p3"]

def exOpfBase : String := "OEBPS/"

def exZip : List (String × String) :=
  [("OEBPS/page1.xhtml", "<html><body>one</body></html>"),
   ("OEBPS/page3.xhtml", "<html><body>three</body></html>")]

/-- C5 (amended): the resolver iterates spine itemrefs in document
order, adding for each resolvable idref the manifest's entry in that
same order; an itemref absent from the manifest is skipped silently
(no log is emitted for it) without aborting the parse.  Itemrefs
`[p1,p2,p3]` over a manifest containing only `p1`,`p3` yield spine
`[p1, p3]` and two pages, with an empty parse log. -/
theorem spine_skips_unresolvable_idref :
    (∀ (manifest : List (String × ManifestItem)) (itemrefs : List String)
        (idref : String), lookupManifest manifest idref = none →
        idref ∉ (buildSpine manifest itemrefs).map SpineEntry.id) ∧
    buildSpine exManifest exItemrefs =
      [⟨"p1", "page1.xhtml", "application/xhtml+xml"⟩,
       ⟨"p3", "page3.xhtml", "application/xhtml+xml"⟩] ∧
    (buildPages exZip exOpfBase (buildSpine exManifest exItemrefs)).length = 2 ∧
    parseEpubLogs exZip exOpfBase exManifest exItemrefs = [] := by
  refine ⟨?_, by decide, by decide, by decide⟩
  intro manifest itemrefs idref hnone hmem
  rcases List.mem_map.mp hmem with ⟨entry, hentry, hid⟩
  rcases List.mem_filterMap.mp hentry with ⟨idref2, _, hsome⟩
  rcases hlk : lookupManifest manifest idref2 with _ | m
  · rw [hlk] at hsome; cases hsome
  · rw [hlk] at hsome
    have : entry.id = idref2 := by
      cases hsome2 : hsome
      simp [Option.map] at hsome
      cases hsome; rfl
    rw [← hid, this] at hnone
    rw [hlk] at hnone
    cases hnone

/-- C5 witness: `p2` does not resolve in the example manifest and is
absent from the resulting spine. -/
theorem spine_skips_unresolvable_idref_witness :
    "p2" ∉ (buildSpine exManifest exItemrefs).map SpineEntry.id :=
  spine_skips_unresolvable_idref.1 exManifest exItemrefs "p2" (by decide)

/-- C5 counterexample: `p2` is skipped (the spine is `[p1, p3]`), yet
the whole parse emits no log at all — refuting the claim that a
dangling itemref is "skipped with a log". -/
theorem spine_skip_emits_no_log :
    (buildSpine exManifest exItemrefs).map SpineEntry.id = ["p1", "p3"] ∧
    parseEpubLogs exZip exOpfBase exManifest exItemrefs = [] := by
  decide

/-! ### C6: completion of a parse commits unconditionally -/

structure ReaderState where
  pages : List Page
  currentPageIndex : Int
deriving DecidableEq, Repr

/-- The tail of `parseEpub`'s success path: `setPages(pagesData);
setCurrentPageIndex(0)` — the completion handler overwrites the reader
state unconditionally; it consults no load-generation token and never
compares against the state produced by a newer load. -/
def commitParse (_s : ReaderState) (pagesData : List Page) : ReaderState :=
  { pages := pagesData, currentPageIndex := 0 }

/-- Event-loop interleaving of overlapping loads: each parse completion
runs `commitParse` in the order the completions are scheduled. -/
def runCompletions (s : ReaderState) (completions : List (List Page)) :
    ReaderState :=
  completions.foldl commitParse s

def exManifestA : List (String × ManifestItem) :=
  [("a", ⟨"a.xhtml", "application/xhtml+xml"⟩)]

def exZipA : List (String × String) :=
  [("OEBPS/a.xhtml", "<html><body>book A</body></html>")]

def exManifestB : List (String × ManifestItem) :=
  [("b", ⟨"b.xhtml", "application/xhtml+xml"⟩)]

def exZipB : List (String × String) :=
  [("OEBPS/b.xhtml", "<html><body>book B</body></html>")]

def exPagesA : List Page :=
  buildPages exZipA exOpfBase (buildSpine exManifestA ["a"])

def exPagesB : List Page :=
  buildPages exZipB exOpfBase (buildSpine exManifestB ["b"])

/-- C6 (code behaviour at the failing schedule): file A's load is
started, then file B's load is started while A is still in flight; B's
parse completes first and A's stale parse completes last.  Because
`parseEpub` commits unconditionally (no load-generation token), the
final committed pages are the stale load A's, overwriting the newer
Book — the claim says only the most recent load's results are ever
committed. -/
theorem stale_load_overwrites_newer_book :
    (runCompletions ⟨[], 0⟩ [exPagesB, exPagesA]).pages = exPagesA ∧
    exPagesA ≠ exPagesB := by
  decide

/-! ### C7: image resolution is uncached -/

/-- State threaded through `processPageContent`'s image loop: the next
fresh object URL `URL.createObjectURL` would mint (object URLs are
unique per call), and how many archive reads (`imageFile.async('blob')`)
have happened. -/
structure AssetState where
  nextObjectUrl : Nat
  archiveReads : Nat
deriving DecidableEq, Repr

/-- One image resolution from `processPageContent`:
`zip.file(fullPath)`; if present, read the blob from the archive and
mint a fresh object URL; if absent, leave the reference unresolved.
There is no per-path cache anywhere in the component. -/
def resolveImage (zip : List (String × String)) (fullPath : String)
    (s : AssetState) : Option Nat × AssetState :=
  match zipFile zip fullPath with
  | some _ => (some s.nextObjectUrl,
      { nextObjectUrl := s.nextObjectUrl + 1, archiveReads := s.archiveReads + 1 })
  | none => (none, s)

/-- C7 (amended): resolving the same asset path twice is *not*
idempotent and *not* cached: each successful resolution performs its
own archive read and returns a fresh, distinct object URL. -/
theorem resolve_same_path_twice_uncached (zip : List (String × String))
    (fullPath : String) (s : AssetState)
    (h : (zipFile zip fullPath).isSome = true) :
    (resolveImage zip fullPath s).1 = some s.nextObjectUrl ∧
    (resolveImage zip fullPath ((resolveImage zip fullPath s).2)).1 =
      some (s.nextObjectUrl + 1) ∧
    (resolveImage zip fullPath s).1 ≠
      (resolveImage zip fullPath ((resolveImage zip fullPath s).2)).1 ∧
    ((resolveImage zip fullPath ((resolveImage zip fullPath s).2)).2).archiveReads =
      s.archiveReads + 2 := by
  rcases hzf : zipFile zip fullPath with _ | content
  · rw [hzf] at h; cases h
  · refine ⟨?_, ?_, ?_, ?_⟩ <;> simp [resolveImage, hzf]

def exImgZip : List (String × String) := [("OEBPS/img.png", "PNGDATA")]

/-- C7 witness: resolving `OEBPS/img.png` twice yields two different
handles. -/
theorem resolve_same_path_twice_uncached_witness :
    (resolveImage exImgZip "OEBPS/img.png" ⟨0, 0⟩).1 ≠
      (resolveImage exImgZip "OEBPS/img.png"
        ((resolveImage exImgZip "OEBPS/img.png" ⟨0, 0⟩).2)).1 :=
  (resolve_same_path_twice_uncached exImgZip "OEBPS/img.png" ⟨0, 0⟩
    (by decide)).2.2.1

/-- C7 counterexample: starting from a fresh state, the first resolution
of `OEBPS/img.png` returns handle 0, the second returns handle 1 (a
different underlying display resource), and the archive has been read
twice — refuting idempotent, cached, read-once resolution. -/
theorem resolve_twice_distinct_handles :
    (resolveImage exImgZip "OEBPS/img.png" ⟨0, 0⟩).1 = some 0 ∧
    (resolveImage exImgZip "OEBPS/img.png"
      ((resolveImage exImgZip "OEBPS/img.png" ⟨0, 0⟩).2)).1 = some 1 ∧
    ((resolveImage exImgZip "OEBPS/img.png"
      ((resolveImage exImgZip "OEBPS/img.png" ⟨0, 0⟩).2)).2).archiveReads = 2 := by
  decide

/-! ### C8: out-of-range navigation is a silent no-op -/

/-- C8: `handlePageChange` leaves `currentPageIndex` unchanged for any
out-of-range target index, and moves to any in-range target index. -/
theorem goTo_out_of_range_is_noop (pagesLen : Nat)
    (currentPageIndex pageIndex : Int) :
    ((pageIndex < 0 ∨ (pagesLen : Int) ≤ pageIndex) →
      handlePageChange pagesLen currentPageIndex pageIndex = currentPageIndex) ∧
    ((0 ≤ pageIndex ∧ pageIndex < (pagesLen : Int)) →
      handlePageChange pagesLen currentPageIndex pageIndex = pageIndex) := by
  unfold handlePageChange
  constructor
  · intro h
    rw [if_neg]
    omega
  · intro h
    rw [if_pos h]

/-- C8 witness: with 3 pages and current index 1, `goTo 5` and
`goTo (-1)` are no-ops while `goTo 2` moves. -/
theorem goTo_out_of_range_is_noop_witness :
    handlePageChange 3 1 5 = 1 ∧ handlePageChange 3 1 (-1) = 1 ∧
    handlePageChange 3 1 2 = 2 :=
  ⟨(goTo_out_of_range_is_noop 3 1 5).1 (Or.inr (by decide)),
   (goTo_out_of_range_is_noop 3 1 (-1)).1 (Or.inl (by decide)),
   (goTo_out_of_range_is_noop 3 1 2).2 ⟨by decide, by decide⟩⟩

/-! ### C9: keyboard navigation (window-level listener) -/

/-- A keydown event: its key, and whether the focused event target sits
inside a text-input context (the handler in `PageViewer` never
inspects the latter — the listener is registered on `window`). -/
structure KeyEvent where
  key : String
  targetIsTextInput : Bool
deriving DecidableEq, Repr

/-- `handlePreviousPage`: `if (currentPageIndex > 0)
onPageChange(currentPageIndex - 1)`. -/
def handlePreviousPage (pagesLen : Nat) (currentPageIndex : Int) : Int :=
  if 0 < currentPageIndex then
    handlePageChange pagesLen currentPageIndex (currentPageIndex - 1)
  else currentPageIndex

/-- `handleNextPage`: `if (currentPageIndex < pages.length - 1)
onPageChange(currentPageIndex + 1)`. -/
def handleNextPage (pagesLen : Nat) (currentPageIndex : Int) : Int :=
  if currentPageIndex < (pagesLen : Int) - 1 then
    handlePageChange pagesLen currentPageIndex (currentPageIndex + 1)
  else currentPageIndex

/-- The `handleKeyPress` listener added on `window`: ArrowLeft/ArrowUp
→ previous page, ArrowRight/ArrowDown → next page; no other key does
anything, and nothing about the event's target is examined. -/
def handleKeyPress (pagesLen : Nat) (currentPageIndex : Int) (e : KeyEvent) : Int :=
  if e.key = "ArrowLeft" ∨ e.key = "ArrowUp" then
    handlePreviousPage pagesLen currentPageIndex
  else if e.key = "ArrowRight" ∨ e.key = "ArrowDown" then
    handleNextPage pagesLen currentPageIndex
  else currentPageIndex

/-- C9 (amended): ArrowLeft/ArrowUp map to previous page and
ArrowRight/ArrowDown to next page, but the listener is registered on
`window` and its behaviour is entirely independent of whether focus is
inside a text-input context — the binding is *not* scoped to the
reading surface. -/
theorem arrow_keys_map_but_ignore_focus (pagesLen : Nat)
    (currentPageIndex : Int) (e : KeyEvent) :
    (e.key = "ArrowLeft" ∨ e.key = "ArrowUp" →
      handleKeyPress pagesLen currentPageIndex e =
        handlePreviousPage pagesLen currentPageIndex) ∧
    (e.key = "ArrowRight" ∨ e.key = "ArrowDown" →
      handleKeyPress pagesLen currentPageIndex e =
        handleNextPage pagesLen currentPageIndex) ∧
    (∀ b : Bool, handleKeyPress pagesLen currentPageIndex
        { key := e.key, targetIsTextInput := b } =
      handleKeyPress pagesLen currentPageIndex e) := by
  refine ⟨?_, ?_, ?_⟩
  · intro h
    unfold handleKeyPress
    rw [if_pos h]
  · intro h
    unfold handleKeyPress
    rw [if_neg, if_pos h]
    rcases h with h | h <;> rw [h] <;> decide
  · intro b
    rfl

/-- C9 witness: an ArrowRight keydown whose target is inside a text
input is handled exactly as next-page. -/
theorem arrow_keys_map_but_ignore_focus_witness :
    handleKeyPress 3 1 { key := "ArrowRight", targetIsTextInput := true } =
      handleNextPage 3 1 :=
  (arrow_keys_map_but_ignore_focus 3 1
    { key := "ArrowRight", targetIsTextInput := true }).2.1 (Or.inl rfl)

/-- C9 counterexample: with 3 pages and current index 1, an ArrowRight
keydown fired while focus is inside a text-input context still changes
the page (1 → 2) — refuting the claim that the bindings never trigger
a page change in a text-input context. -/
theorem arrow_key_fires_inside_text_input :
    handleKeyPress 3 1 { key := "ArrowRight", targetIsTextInput := true } = 2 ∧
    handleKeyPress 3 1 { key := "ArrowRight", targetIsTextInput := true } ≠ 1 := by
  decide

/-! ### C10: the two overlay branches of `processPageContent` -/

/-- The outcome of `parser.parseFromString(page.content, 'text/html')`
as far as the branch in question observes it: whether the fragment
contains a `.page-container` and a `.text-layer`, the body's innerHTML
when a body node exists, and the documentElement's innerHTML. -/
structure ParsedDoc where
  hasPageContainer : Bool
  hasTextLayer : Bool
  bodyInnerHTML : Option String
  documentElementInnerHTML : String
deriving DecidableEq, Repr

/-- The expression both branches evaluate:
`doc.body ? doc.body.innerHTML : doc.documentElement.innerHTML`. -/
def bodyContentOf (doc : ParsedDoc) : String :=
  match doc.bodyInnerHTML with
  | some b => b
  | none => doc.documentElementInnerHTML

/-- The overlay-detection branch of `processPageContent`:
`if (pageContainer && textLayer) { bodyContent } else { bodyContent }`
— both arms taken verbatim from the source. -/
def processPageContent (doc : ParsedDoc) : String :=
  if doc.hasPageContainer && doc.hasTextLayer then
    match doc.bodyInnerHTML with
    | some b => b
    | none => doc.documentElementInnerHTML
  else
    match doc.bodyInnerHTML with
    | some b => b
    | none => doc.documentElementInnerHTML

/-- C10: both branches of the overlay detection produce exactly the
parsed document body's innerHTML (falling back to the documentElement's
innerHTML when no body exists); the processed output never depends on
whether the overlay structure was detected. -/
theorem overlay_detection_never_changes_output (doc : ParsedDoc) :
    processPageContent doc = bodyContentOf doc ∧
    (∀ pc tl : Bool,
      processPageContent
        { doc with hasPageContainer := pc, hasTextLayer := tl } =
        bodyContentOf doc) := by
  constructor
  · unfold processPageContent bodyContentOf
    split <;> rfl
  · intro pc tl
    unfold processPageContent bodyContentOf
    split <;> rfl

end PdfEpubConverter
